import Mathlib

/-!
Shallow embedding of `src/logparser/parsers.py` (a log-scanning tool) and
verification of its specification claims.

Lines of a log file are modelled as `List Char` (Python `str`), a file as
`List (List Char)` (the iteration over lines, each already `rstrip('\n')`-ed
where the source does so).  Python functions that can raise `ValueError`
(via an uncaught `datetime.strptime`) are modelled with `Except Unit`.
-/

set_option maxRecDepth 10000

/-- Python regex `\d` restricted to ASCII, which is all that occurs in the
matched log material: the ten digit characters. -/
def isDigitC (c : Char) : Bool :=
  c == '0' || c == '1' || c == '2' || c == '3' || c == '4' || c == '5' ||
  c == '6' || c == '7' || c == '8' || c == '9'

/-- Regex character class `[A-Z]`. -/
def isUpperAZ (c : Char) : Bool :=
  'A' ≤ c && c ≤ 'Z'

/-- Python regex `\s` (ASCII part), also Python's `str.strip` whitespace. -/
def isSpaceC (c : Char) : Bool :=
  [ ' ', '\t', '\n', '\r', '\x0b', '\x0c'].contains c

/-- Regex `\w` (ASCII part): letters, digits and underscore. -/
def isWordC (c : Char) : Bool :=
  isDigitC c || ('a' ≤ c && c ≤ 'z') || ('A' ≤ c && c ≤ 'Z') || c == '_'

/-- Numeric value of a digit character (Python `int` on a matched `\d`). -/
def digitVal (c : Char) : Nat :=
  match c with
  | '0' => 0 | '1' => 1 | '2' => 2 | '3' => 3 | '4' => 4
  | '5' => 5 | '6' => 6 | '7' => 7 | '8' => 8 | '9' => 9
  | _ => 0

/-- Digit character of a value `≤ 9` (used by zero-padded `strftime`). -/
def dChar (n : Nat) : Char :=
  match n with
  | 0 => '0' | 1 => '1' | 2 => '2' | 3 => '3' | 4 => '4'
  | 5 => '5' | 6 => '6' | 7 => '7' | 8 => '8' | 9 => '9'
  | _ => '*'

/-- Two-digit zero-padded rendering (`%d`, `%y`, `%H`, `%M`, `%S` of
`strftime` on values below 100). -/
def render2 (n : Nat) : List Char :=
  [ dChar (n / 10), dChar (n % 10)]

/-- Case-insensitive comparison of one character against a letter given in
its upper and lower case form (how `re.IGNORECASE` and `strptime`'s
month-name lookup compare ASCII letters). -/
def eqCI (c up low : Char) : Bool :=
  c == up || c == low

/-- Lower-casing of ASCII letters (Python `str.lower` on the characters that
can occur in a matched month abbreviation). -/
def lowerC (c : Char) : Char :=
  match c with
  | 'A' => 'a' | 'B' => 'b' | 'C' => 'c' | 'D' => 'd' | 'E' => 'e'
  | 'F' => 'f' | 'G' => 'g' | 'H' => 'h' | 'I' => 'i' | 'J' => 'j'
  | 'K' => 'k' | 'L' => 'l' | 'M' => 'm' | 'N' => 'n' | 'O' => 'o'
  | 'P' => 'p' | 'Q' => 'q' | 'R' => 'r' | 'S' => 's' | 'T' => 't'
  | 'U' => 'u' | 'V' => 'v' | 'W' => 'w' | 'X' => 'x' | 'Y' => 'y'
  | 'Z' => 'z' | _ => c

/-- Python substring test `needle in hay` (`str.__contains__`). -/
def containsSub (needle : List Char) : List Char → Bool
  | [] => needle.isEmpty
  | c :: cs => needle.isPrefixOf (c :: cs) || containsSub needle cs

/-- Python `str.strip()` : drop whitespace from both ends. -/
def stripWs (l : List Char) : List Char :=
  ((l.dropWhile isSpaceC).reverse.dropWhile isSpaceC).reverse

/-- A `datetime` value as produced by
`datetime.strptime(_, '%d-%b-%y %H:%M:%S')` (no sub-second, no timezone). -/
structure Timestamp where
  year : Nat
  month : Nat
  day : Nat
  hour : Nat
  minute : Nat
  second : Nat
deriving DecidableEq

/-- The capture of the timestamp regex
`\[(\d{2}-[A-Z]{3}-\d{2}\s+\d{2}:\d{2}:\d{2})\]` of
`parsers.py:12`, split into its character positions; `ws` is the run
matched by `\s+`. -/
structure TsGroup where
  d1 : Char
  d2 : Char
  m1 : Char
  m2 : Char
  m3 : Char
  y1 : Char
  y2 : Char
  ws : List Char
  h1 : Char
  h2 : Char
  mi1 : Char
  mi2 : Char
  s1 : Char
  s2 : Char
deriving DecidableEq

/-- The text of the captured group (`match.group(1)`: the bracketed
timestamp without the brackets). -/
def groupChars (g : TsGroup) : List Char :=
  [ g.d1, g.d2, '-', g.m1, g.m2, g.m3, '-', g.y1, g.y2] ++ g.ws ++
  [ g.h1, g.h2, ':', g.mi1, g.mi2, ':', g.s1, g.s2]

/-- Attempt of the timestamp regex at one fixed position of the line.
`\s+` is matched greedily; no backtracking can occur because whitespace
and digits are disjoint. -/
def tsMatchAt (cs : List Char) : Option TsGroup :=
  match cs with
  | b0 :: d1 :: d2 :: da1 :: m1 :: m2 :: m3 :: da2 :: y1 :: y2 :: rest =>
    if b0 == '[' && isDigitC d1 && isDigitC d2 && da1 == '-' &&
       isUpperAZ m1 && isUpperAZ m2 && isUpperAZ m3 && da2 == '-' &&
       isDigitC y1 && isDigitC y2 then
      if (rest.takeWhile isSpaceC).isEmpty then none else
      match rest.drop (rest.takeWhile isSpaceC).length with
      | h1 :: h2 :: co1 :: mi1 :: mi2 :: co2 :: s1 :: s2 :: rb :: _ =>
        if isDigitC h1 && isDigitC h2 && co1 == ':' && isDigitC mi1 &&
           isDigitC mi2 && co2 == ':' && isDigitC s1 && isDigitC s2 &&
           rb == ']' then
          some ⟨d1, d2, m1, m2, m3, y1, y2, rest.takeWhile isSpaceC,
                h1, h2, mi1, mi2, s1, s2⟩
        else none
      | _ => none
    else none
  | _ => none

/-- `re.search` of the timestamp pattern: leftmost position at which the
pattern matches. -/
def tsSearch : List Char → Option TsGroup
  | [] => none
  | c :: cs =>
    match tsMatchAt (c :: cs) with
    | some g => some g
    | none => tsSearch cs

/-- Case-insensitive month-abbreviation lookup of `strptime`'s `%b`. -/
def monthFromAbbrevCI (a b c : Char) : Option Nat :=
  if eqCI a 'J' 'j' && eqCI b 'A' 'a' && eqCI c 'N' 'n' then some 1
  else if eqCI a 'F' 'f' && eqCI b 'E' 'e' && eqCI c 'B' 'b' then some 2
  else if eqCI a 'M' 'm' && eqCI b 'A' 'a' && eqCI c 'R' 'r' then some 3
  else if eqCI a 'A' 'a' && eqCI b 'P' 'p' && eqCI c 'R' 'r' then some 4
  else if eqCI a 'M' 'm' && eqCI b 'A' 'a' && eqCI c 'Y' 'y' then some 5
  else if eqCI a 'J' 'j' && eqCI b 'U' 'u' && eqCI c 'N' 'n' then some 6
  else if eqCI a 'J' 'j' && eqCI b 'U' 'u' && eqCI c 'L' 'l' then some 7
  else if eqCI a 'A' 'a' && eqCI b 'U' 'u' && eqCI c 'G' 'g' then some 8
  else if eqCI a 'S' 's' && eqCI b 'E' 'e' && eqCI c 'P' 'p' then some 9
  else if eqCI a 'O' 'o' && eqCI b 'C' 'c' && eqCI c 'T' 't' then some 10
  else if eqCI a 'N' 'n' && eqCI b 'O' 'o' && eqCI c 'V' 'v' then some 11
  else if eqCI a 'D' 'd' && eqCI b 'E' 'e' && eqCI c 'C' 'c' then some 12
  else none

/-- Gregorian leap-year rule (as used by `datetime`). -/
def isLeapYear (y : Nat) : Bool :=
  y % 4 == 0 && (y % 100 != 0 || y % 400 == 0)

/-- Days in a month of a given year (as validated by the `datetime`
constructor). -/
def daysInMonth (y m : Nat) : Nat :=
  match m with
  | 1 => 31 | 2 => if isLeapYear y then 29 else 28
  | 3 => 31 | 4 => 30 | 5 => 31 | 6 => 30 | 7 => 31
  | 8 => 31 | 9 => 30 | 10 => 31 | 11 => 30 | 12 => 31
  | _ => 0

/-- `datetime.strptime(group, '%d-%b-%y %H:%M:%S')` applied to a string that
already matched the outer timestamp regex.  Combines the validation done by
`_strptime`'s per-directive regexes (day 01..31, hour 00..23, minute and
second 00..59, month abbreviation in the table) with the `datetime`
constructor's day-of-month check; all failures raise `ValueError` in
Python, here `none`.  `%y` uses the POSIX century window: 00..68 maps to
2000..2068, 69..99 to 1969..1999. -/
def strptimeModel (g : TsGroup) : Option Timestamp :=
  let day := 10 * digitVal g.d1 + digitVal g.d2
  let yy := 10 * digitVal g.y1 + digitVal g.y2
  let year := if yy ≤ 68 then 2000 + yy else 1900 + yy
  let hour := 10 * digitVal g.h1 + digitVal g.h2
  let minute := 10 * digitVal g.mi1 + digitVal g.mi2
  let second := 10 * digitVal g.s1 + digitVal g.s2
  match monthFromAbbrevCI g.m1 g.m2 g.m3 with
  | none => none
  | some mo =>
    if 1 ≤ day ∧ day ≤ daysInMonth year mo ∧ hour ≤ 23 ∧ minute ≤ 59 ∧
       second ≤ 59 then
      some ⟨year, mo, day, hour, minute, second⟩
    else none

/-- Outcome of `parse_timestamp` (`parsers.py:10-15`): a parsed value, the
Python `None` return, or an uncaught `ValueError` escaping from
`datetime.strptime`. -/
inductive TsResult where
  | ok (t : Timestamp)
  | noTs
  | valueError
deriving DecidableEq

/-- `parse_timestamp` of `parsers.py:10-15`: regex-search the line; on a
match feed the captured group to `strptime` (whose failure propagates as
`ValueError`); otherwise return `None`. -/
def parse_timestamp (line : List Char) : TsResult :=
  match tsSearch line with
  | none => .noTs
  | some g =>
    match strptimeModel g with
    | some t => .ok t
    | none => .valueError

/-- `strftime`'s `%b`: title-case month abbreviation (C locale). -/
def monthAbbrevT (m : Nat) : List Char :=
  match m with
  | 1 => [ 'J', 'a', 'n'] | 2 => [ 'F', 'e', 'b'] | 3 => [ 'M', 'a', 'r']
  | 4 => [ 'A', 'p', 'r'] | 5 => [ 'M', 'a', 'y'] | 6 => [ 'J', 'u', 'n']
  | 7 => [ 'J', 'u', 'l'] | 8 => [ 'A', 'u', 'g'] | 9 => [ 'S', 'e', 'p']
  | 10 => [ 'O', 'c', 't'] | 11 => [ 'N', 'o', 'v'] | 12 => [ 'D', 'e', 'c']
  | _ => []

/-- `t.strftime('%d-%b-%y %H:%M:%S')` for the field ranges producible by
`strptimeModel` (all numeric fields below 100, so two-digit zero-padded). -/
def fmtTs (t : Timestamp) : List Char :=
  render2 t.day ++ '-' :: monthAbbrevT t.month ++ '-' ::
  render2 (t.year % 100) ++ ' ' :: render2 t.hour ++ ':' ::
  render2 t.minute ++ ':' :: render2 t.second

/-- Days from 1970-01-01 of a civil date (Hinnant's algorithm; all
intermediate divisions act on non-negative operands for the years in the
`%y` window, so truncated division agrees with floor division). -/
def daysFromCivil (y m d : Nat) : Int :=
  let yi : Int := if m ≤ 2 then (y : Int) - 1 else (y : Int)
  let era : Int := (if 0 ≤ yi then yi else yi - 399) / 400
  let yoe : Int := yi - era * 400
  let mp : Int := ((m : Int) + 9) % 12
  let doy : Int := (153 * mp + 2) / 5 + (d : Int) - 1
  let doe : Int := yoe * 365 + yoe / 4 - yoe / 100 + doy
  era * 146097 + doe - 719468

/-- Seconds from the epoch; `(a - b).total_seconds()` on two `datetime`
values equals `epochSecs a - epochSecs b` (an exact whole number of
seconds here, since the values carry no sub-second part). -/
def epochSecs (t : Timestamp) : Int :=
  daysFromCivil t.year t.month t.day * 86400 +
  t.hour * 3600 + t.minute * 60 + t.second

/-- One emitted Oracle error record (`parsers.py:49-57`).  `timestamp` holds
the `strftime`-rendered string or the `N/A` sentinel, exactly as the dict
does. -/
structure OraRecord where
  error_code : List Char
  message : List Char
  timestamp : List Char
  line_number : Nat
  context : List Char
  file : List Char
  full_line : List Char
deriving DecidableEq

/-- Attempt of `(ORA-(\d{5})[:\s].*?)(?:\n|$)` (with `re.IGNORECASE`,
`parsers.py:25`) at one fixed position; returns the five captured digits.
Since the line holds no newline, the lazy `.*?` before `(?:\n|$)` always
extends to the end of the line, so the position and the line suffice to
reconstruct group 1. -/
def oraMatchAt (cs : List Char) : Option (List Char) :=
  match cs with
  | c0 :: c1 :: c2 :: c3 :: d1 :: d2 :: d3 :: d4 :: d5 :: sep :: _ =>
    if eqCI c0 'O' 'o' && eqCI c1 'R' 'r' && eqCI c2 'A' 'a' && c3 == '-' &&
       isDigitC d1 && isDigitC d2 && isDigitC d3 && isDigitC d4 &&
       isDigitC d5 && (sep == ':' || isSpaceC sep) then
      some [d1, d2, d3, d4, d5]
    else none
  | _ => none

/-- Leftmost match of the `ORA-` pattern: position (0-based) and captured
digits. -/
def oraSearchFrom : List Char → Nat → Option (Nat × List Char)
  | [], _ => none
  | c :: cs, i =>
    match oraMatchAt (c :: cs) with
    | some d => some (i, d)
    | none => oraSearchFrom cs (i + 1)

/-- `ora_pattern.search(line)` of `parsers.py:35`. -/
def oraSearch (line : List Char) : Option (Nat × List Char) :=
  oraSearchFrom line 0

/-- Length of the maximal `\w` run at the head of `cs`. -/
def wrun (cs : List Char) : Nat :=
  (cs.takeWhile isWordC).length

/-- Try `f k` for `k = n, n-1, ..., 1` and return the first success:
the backtracking order of a greedy `\w+`. -/
def tryDown : Nat → (Nat → Option Nat) → Option Nat
  | 0, _ => none
  | k + 1, f =>
    match f (k + 1) with
    | some r => some r
    | none => tryDown k f

/-- Backtracking matcher for the tail `(?:_\w+)*:` of the context pattern
(`parsers.py:27`), following the engine's order: another greedy `_\w+`
iteration first, then the closing `:`.  Returns the number of characters
consumed before the `:` (they belong to the capture group). -/
def ctxC : Nat → List Char → Option Nat
  | 0, _ => none
  | fuel + 1, cs =>
    let uTry :=
      match cs with
      | '_' :: rest =>
        tryDown (wrun rest)
          (fun k => (ctxC fuel (rest.drop k)).map (fun n => 1 + k + n))
      | _ => none
    match uTry with
    | some r => some r
    | none =>
      match cs with
      | ':' :: _ => some 0
      | _ => none

/-- Backtracking matcher for `(?:\.\w+)*(?:_\w+)*:`, the part of the
context pattern after the leading `\w+`: a greedy `\.\w+` iteration first,
otherwise fall through to `ctxC`. -/
def ctxB : Nat → List Char → Option Nat
  | 0, _ => none
  | fuel + 1, cs =>
    let dotTry :=
      match cs with
      | '.' :: rest =>
        tryDown (wrun rest)
          (fun k => (ctxB fuel (rest.drop k)).map (fun n => 1 + k + n))
      | _ => none
    match dotTry with
    | some r => some r
    | none => ctxC fuel cs

/-- Attempt of the context pattern `\]\s*(\w+(?:\.\w+)*(?:_\w+)*):`
(`parsers.py:27`) at one fixed position, returning the captured group.
`\s*` never backtracks (whitespace and word characters are disjoint); the
leading `\w+` backtracks greedily via `tryDown`. -/
def ctxMatchAt (cs : List Char) : Option (List Char) :=
  match cs with
  | ']' :: rest =>
    let body := rest.drop (rest.takeWhile isSpaceC).length
    match tryDown (wrun body)
        (fun k => (ctxB (body.length + 1) (body.drop k)).map (fun n => k + n))
      with
    | some g => some (body.take g)
    | none => none
  | _ => none

/-- `context_pattern.search(line)` of `parsers.py:46`: leftmost match,
returning the captured module/procedure name. -/
def ctxSearch : List Char → Option (List Char)
  | [] => none
  | c :: cs =>
    match ctxMatchAt (c :: cs) with
    | some g => some g
    | none => ctxSearch cs

/-- Processing of one line by `extract_oracle_errors` (`parsers.py:35-57`):
`none` when the line yields no record, `some` a record, `Except.error` when
the uncaught `ValueError` of `parse_timestamp` propagates. -/
def oraLine (fn : List Char) (n : Nat) (line : List Char) :
    Except Unit (Option OraRecord) :=
  match oraSearch line with
  | none => .ok none
  | some (pos, digits) =>
    if digits = "01403".data then .ok none
    else
      let full_error := stripWs (line.drop pos)
      let context := (ctxSearch line).getD "Unknown".data
      let full_line :=
        if 200 < line.length then line.take 200 ++ "...".data else line
      match parse_timestamp line with
      | .valueError => .error ()
      | .noTs =>
        .ok (some ⟨"ORA-".data ++ digits, full_error, "N/A".data, n,
                   context, fn, full_line⟩)
      | .ok t =>
        .ok (some ⟨"ORA-".data ++ digits, full_error, fmtTs t, n,
                   context, fn, full_line⟩)

/-- The line loop of `extract_oracle_errors`, threading the 1-based line
number. -/
def oraLoop (fn : List Char) : List (List Char) → Nat →
    Except Unit (List OraRecord)
  | [], _ => .ok []
  | l :: ls, n =>
    match oraLine fn n l with
    | .error e => .error e
    | .ok none => oraLoop fn ls (n + 1)
    | .ok (some r) =>
      match oraLoop fn ls (n + 1) with
      | .error e => .error e
      | .ok rs => .ok (r :: rs)

/-- `extract_oracle_errors` (`parsers.py:18-59`) on the file's lines (each
already `rstrip('\n')`-ed); `fn` is `os.path.basename(file_path)`. -/
def extract_oracle_errors (fn : List Char) (lines : List (List Char)) :
    Except Unit (List OraRecord) :=
  oraLoop fn lines 1

/-- The subsystem tag of `xdock_pattern` (`parsers.py:72`). -/
def tagStr : List Char := "WMS_XDock_Pegging_Pub:".data

/-- `xdock_pattern.search(line)` (`parsers.py:82`): the tag occurs as a
substring. -/
def containsTag (line : List Char) : Bool :=
  containsSub tagStr line

/-- The suffix of the line after the end of the first tag occurrence, when
the tag occurs. -/
def afterFirstTag : List Char → Option (List Char)
  | [] => none
  | c :: cs =>
    if tagStr.isPrefixOf (c :: cs) then some ((c :: cs).drop tagStr.length)
    else afterFirstTag cs

/-- Attempt of `WMS_XDock_Pegging_Pub:\s*Del Id:(\d+)` (`parsers.py:73`) at
one fixed position: tag, greedy `\s*` (no backtracking: `D` is not
whitespace), the literal, then the greedy nonempty digit capture. -/
def delIdAt (cs : List Char) : Option (List Char) :=
  if tagStr.isPrefixOf cs then
    let rest := (cs.drop tagStr.length).dropWhile isSpaceC
    if "Del Id:".data.isPrefixOf rest then
      let ds := (rest.drop 7).takeWhile isDigitC
      if ds.isEmpty then none else some ds
    else none
  else none

/-- `del_id_pattern.search(line)` (`parsers.py:85`): leftmost match,
returning the captured digits. -/
def delIdSearch : List Char → Option (List Char)
  | [] => none
  | c :: cs =>
    match delIdAt (c :: cs) with
    | some ds => some ds
    | none => delIdSearch cs

def waitPhrase : List Char := "wdd update wait time:".data

def failPhrase : List Char := "Could not lock the WDD demand line record".data

def succPhrase : List Char := "RM - Got WDD lock".data

/-- Occurrence of `p` immediately followed by at least one digit. -/
def subWithDigit (p : List Char) : List Char → Bool
  | [] => false
  | c :: cs =>
    (p.isPrefixOf (c :: cs) &&
      (match (c :: cs).drop p.length with
       | d :: _ => isDigitC d
       | [] => false)) ||
    subWithDigit p cs

/-- `wait_time_pattern.search(line)` (`parsers.py:92`) as a truth value:
`TAG.*wdd update wait time:(\d+)` matches iff the phrase followed by a
digit occurs somewhere after the end of the first tag occurrence (since
`.*` spans anything, matching from the leftmost tag is the weakest
constraint, so existence from any tag occurrence is equivalent). -/
def waitSearch (line : List Char) : Bool :=
  match afterFirstTag line with
  | none => false
  | some r => subWithDigit waitPhrase r

/-- `lock_fail_pattern.search(line)` (`parsers.py:98`) as a truth value. -/
def failSearch (line : List Char) : Bool :=
  match afterFirstTag line with
  | none => false
  | some r => containsSub failPhrase r

/-- `lock_success_pattern.search(line)` (`parsers.py:115`) as a truth
value. -/
def successSearch (line : List Char) : Bool :=
  match afterFirstTag line with
  | none => false
  | some r => containsSub succPhrase r

/-- The mutable per-file state of `extract_wdd_lock_info`
(`parsers.py:68-70`). -/
structure LockState where
  current_del_id : Option (List Char)
  wait_time_line : Option (List Char)
  wait_timestamp : Option Timestamp
deriving DecidableEq

/-- The reset state (all three variables `None`). -/
def idleLS : LockState := ⟨none, none, none⟩

/-- One emitted lock record (`parsers.py:102-109`). -/
structure LockRecord where
  del_id : List Char
  wait_start : List Char
  result_time : List Char
  time_diff_seconds : Int
  result : List Char
  file : List Char
deriving DecidableEq

/-- Python truthiness of `current_del_id` (`None` and the empty string are
falsy). -/
def pyTruthy : Option (List Char) → Bool
  | none => false
  | some s => !s.isEmpty

/-- One iteration of the line loop of `extract_wdd_lock_info`
(`parsers.py:79-130`), in the source's test order: tag fast path, `Del Id`
capture, wait line, failure line, success line.  An uncaught `ValueError`
from `parse_timestamp` propagates as `Except.error`. -/
def wddStep (fn : List Char) (st : LockState) (line : List Char) :
    Except Unit (LockState × Option LockRecord) :=
  if containsTag line = false then .ok (st, none)
  else
    match delIdSearch line with
    | some ds => .ok (⟨some ds, none, none⟩, none)
    | none =>
      if waitSearch line && pyTruthy st.current_del_id then
        match parse_timestamp line with
        | .valueError => .error ()
        | .noTs => .ok (⟨st.current_del_id, some line, none⟩, none)
        | .ok t => .ok (⟨st.current_del_id, some line, some t⟩, none)
      else if failSearch line && pyTruthy st.current_del_id &&
          st.wait_timestamp.isSome then
        match st.current_del_id, st.wait_timestamp with
        | some ds, some t1 =>
          match parse_timestamp line with
          | .valueError => .error ()
          | .noTs => .ok (idleLS, none)
          | .ok t2 =>
            .ok (idleLS, some ⟨ds, fmtTs t1, fmtTs t2,
                  epochSecs t2 - epochSecs t1, "LOCK FAILED".data, fn⟩)
        | _, _ => .ok (st, none)
      else if successSearch line && pyTruthy st.current_del_id &&
          st.wait_timestamp.isSome then
        match st.current_del_id, st.wait_timestamp with
        | some ds, some t1 =>
          match parse_timestamp line with
          | .valueError => .error ()
          | .noTs => .ok (idleLS, none)
          | .ok t2 =>
            .ok (idleLS, some ⟨ds, fmtTs t1, fmtTs t2,
                  epochSecs t2 - epochSecs t1, "LOCK SUCCESS".data, fn⟩)
        | _, _ => .ok (st, none)
      else .ok (st, none)

/-- The line loop of `extract_wdd_lock_info`, accumulating emitted records
in order. -/
def wddLoop (fn : List Char) : List (List Char) → LockState →
    Except Unit (List LockRecord)
  | [], _ => .ok []
  | l :: ls, st =>
    match wddStep fn st l with
    | .error e => .error e
    | .ok (st2, none) => wddLoop fn ls st2
    | .ok (st2, some r) =>
      match wddLoop fn ls st2 with
      | .error e => .error e
      | .ok rs => .ok (r :: rs)

/-- `extract_wdd_lock_info` (`parsers.py:62-132`) on the file's lines;
`fn` is `os.path.basename(file_path)`. -/
def extract_wdd_lock_info (fn : List Char) (lines : List (List Char)) :
    Except Unit (List LockRecord) :=
  wddLoop fn lines idleLS

/-- The scan of `extract_id_traces` (`parsers.py:152-157`): thread the
1-based line counter and the optional first/last occurrence numbers. -/
def tracesScan (sid : List Char) : List (List Char) → Nat →
    Option Nat → Option Nat → Option Nat × Option Nat
  | [], _, fo, lo => (fo, lo)
  | l :: ls, n, fo, lo =>
    if containsSub sid l then
      tracesScan sid ls (n + 1)
        (match fo with
         | none => some n
         | some f => some f)
        (some n)
    else tracesScan sid ls (n + 1) fo lo

/-- `extract_id_traces` (`parsers.py:135-165`): the buffered lines are the
input list (kept verbatim, newlines and all); on at least one occurrence,
return the Python slice `all_lines[first-1:last]` with the two 1-based line
numbers, else `([], 0, 0)`. -/
def extract_id_traces (lines : List (List Char)) (sid : List Char) :
    List (List Char) × Nat × Nat :=
  match tracesScan sid lines 1 none none with
  | (some f, some l) => ((lines.drop (f - 1)).take (l - (f - 1)), f, l)
  | _ => ([], 0, 0)

/-- First 0-based index of a line containing `sid` (specification-side
description of "first line containing the search string"). -/
def firstHitIdx (sid : List Char) : List (List Char) → Option Nat
  | [] => none
  | l :: ls =>
    if containsSub sid l then some 0
    else (firstHitIdx sid ls).map (· + 1)

/-- Last 0-based index of a line containing `sid`. -/
def lastHitIdx (sid : List Char) : List (List Char) → Option Nat
  | [] => none
  | l :: ls =>
    match lastHitIdx sid ls with
    | some k => some (k + 1)
    | none => if containsSub sid l then some 0 else none

/-- A line that matches none of the four marker patterns of the lock
extractor (it may or may not carry the tag); such a line never changes the
state and never emits. -/
def notMarker (l : List Char) : Bool :=
  (delIdSearch l).isNone && !waitSearch l && !failSearch l && !successSearch l

theorem wddStep_noTag (fn : List Char) (st : LockState) (line : List Char)
    (h : containsTag line = false) : wddStep fn st line = .ok (st, none) := by
  simp [wddStep, h]

theorem wddStep_notMarker (fn : List Char) (st : LockState) (line : List Char)
    (h : notMarker line = true) : wddStep fn st line = .ok (st, none) := by
  have h' := h
  unfold notMarker at h'
  simp only [Bool.and_eq_true, Bool.not_eq_true', Option.isNone_iff_eq_none]
    at h'
  obtain ⟨⟨⟨h1, h2⟩, h3⟩, h4⟩ := h'
  unfold wddStep
  cases hct : containsTag line
  · simp
  · simp [h1, h2, h3, h4]


theorem wddLoop_nil (fn : List Char) (st : LockState) :
    wddLoop fn [] st = .ok [] := rfl

theorem wddLoop_cons (fn : List Char) (l : List Char) (ls : List (List Char))
    (st : LockState) :
    wddLoop fn (l :: ls) st =
      match wddStep fn st l with
      | .error e => .error e
      | .ok (st2, none) => wddLoop fn ls st2
      | .ok (st2, some r) =>
        match wddLoop fn ls st2 with
        | .error e => .error e
        | .ok rs => .ok (r :: rs) := rfl

theorem wddLoop_skip (fn : List Char) (pre : List (List Char))
    (rest : List (List Char)) (st : LockState)
    (h : ∀ l ∈ pre, notMarker l = true) :
    wddLoop fn (pre ++ rest) st = wddLoop fn rest st := by
  induction pre with
  | nil => rfl
  | cons l ls ih =>
    have hl : notMarker l = true := h l (by simp)
    have hls : ∀ x ∈ ls, notMarker x = true := fun x hx => h x (by simp [hx])
    rw [List.cons_append, wddLoop_cons, wddStep_notMarker fn st l hl]
    dsimp only
    exact ih hls

theorem wddLoop_filter (fn : List Char) (lines : List (List Char)) :
    ∀ st, wddLoop fn lines st = wddLoop fn (lines.filter containsTag) st := by
  induction lines with
  | nil => intro st; rfl
  | cons l ls ih =>
    intro st
    cases hct : containsTag l
    · rw [List.filter_cons_of_neg (by simp [hct]), wddLoop_cons,
        wddStep_noTag fn st l hct]
      dsimp only
      exact ih st
    · rw [List.filter_cons_of_pos hct, wddLoop_cons, wddLoop_cons]
      cases hs : wddStep fn st l with
      | error e => rfl
      | ok p =>
        obtain ⟨st2, r⟩ := p
        cases r with
        | none => dsimp only; exact ih st2
        | some r0 => dsimp only; rw [ih st2]

/-- C8: the Lock Event Extractor's output (including a propagated
`ValueError`) equals its output on the sublist of lines containing the
subsystem tag `WMS_XDock_Pegging_Pub:`; every line without the tag is
skipped without touching the state, so deleting or inserting such lines
anywhere leaves the output unchanged. -/
theorem c8_tag_filter_invariance (fn : List Char) (lines : List (List Char)) :
    extract_wdd_lock_info fn lines =
      extract_wdd_lock_info fn (lines.filter containsTag) :=
  wddLoop_filter fn lines idleLS

/-- C7: when a line matches the `Del Id:<digits>` identifier pattern, the
step discards whatever pending state was active (identifier and any wait
timestamp), emits no record for the abandoned identifier, and the newly
captured digits become the active identifier. -/
theorem c7_new_id_discards_pending (fn : List Char) (st : LockState)
    (line ds : List Char) (hct : containsTag line = true)
    (hdel : delIdSearch line = some ds) :
    wddStep fn st line = .ok (⟨some ds, none, none⟩, none) := by
  simp [wddStep, hct, hdel]

theorem c7_witness :
    wddStep "a.log".data
      ⟨some "99".data, some "w".data, some ⟨2025, 1, 1, 0, 0, 0⟩⟩
      "WMS_XDock_Pegging_Pub: Del Id:100".data =
      .ok (⟨some "100".data, none, none⟩, none) :=
  c7_new_id_discards_pending "a.log".data
    ⟨some "99".data, some "w".data, some ⟨2025, 1, 1, 0, 0, 0⟩⟩
    "WMS_XDock_Pegging_Pub: Del Id:100".data "100".data rfl rfl

/-- C2 counterexample: feed the extractor `Del Id:100`, a wait-time line
with no parseable timestamp, then a failure line.  The claim predicts that
at the failure line the state resets to IDLE (identifier and pending wait
timestamp cleared), after which the trailing wait/failure pair could not
emit anything; the code instead leaves the state untouched (the identifier
stays active), and the full five-line run emits a record for identifier
100.  Both facts are shown at this concrete input. -/
theorem c2_counterexample :
    wddStep "a.log".data
      ⟨some "100".data, some "WMS_XDock_Pegging_Pub: wdd update wait time:5".data, none⟩
      "WMS_XDock_Pegging_Pub: Could not lock the WDD demand line record".data =
      .ok (⟨some "100".data,
            some "WMS_XDock_Pegging_Pub: wdd update wait time:5".data, none⟩,
           none) ∧
    extract_wdd_lock_info "a.log".data
      [ "WMS_XDock_Pegging_Pub: Del Id:100".data,
        "WMS_XDock_Pegging_Pub: wdd update wait time:5".data,
        "WMS_XDock_Pegging_Pub: Could not lock the WDD demand line record".data,
        "[01-JAN-25 10:00:00] WMS_XDock_Pegging_Pub: wdd update wait time:5".data,
        "[01-JAN-25 10:00:07] WMS_XDock_Pegging_Pub: Could not lock the WDD demand line record".data] =
      .ok [⟨"100".data, "01-Jan-25 10:00:00".data, "01-Jan-25 10:00:07".data,
            7, "LOCK FAILED".data, "a.log".data⟩] ∧
    (some "100".data : Option (List Char)) ≠ none :=
  ⟨rfl, rfl, by simp⟩

/-- C2 amended: when a success or failure marker line is encountered while
an identifier is active but no wait-start timestamp has been captured, the
extractor emits no record for that marker and leaves its state unchanged
(the marker line is ignored; the identifier remains active), rather than
resetting to IDLE. -/
theorem c2_amended_marker_without_wait_ignored (fn : List Char)
    (st : LockState) (line : List Char)
    (hid : pyTruthy st.current_del_id = true)
    (hts : st.wait_timestamp = none)
    (hdel : delIdSearch line = none)
    (hwait : waitSearch line = false)
    (hmark : failSearch line = true ∨ successSearch line = true) :
    wddStep fn st line = .ok (st, none) := by
  unfold wddStep
  cases hct : containsTag line
  · simp
  · simp [hdel, hwait, hts]

theorem c2_witness :
    wddStep "a.log".data ⟨some "100".data, none, none⟩
      "WMS_XDock_Pegging_Pub: Could not lock the WDD demand line record".data =
      .ok (⟨some "100".data, none, none⟩, none) :=
  c2_amended_marker_without_wait_ignored "a.log".data
    ⟨some "100".data, none, none⟩
    "WMS_XDock_Pegging_Pub: Could not lock the WDD demand line record".data
    rfl rfl rfl rfl (Or.inl rfl)

theorem afterFirstTag_containsTag (line r : List Char)
    (h : afterFirstTag line = some r) : containsTag line = true := by
  induction line with
  | nil => cases h
  | cons c cs ih =>
    unfold afterFirstTag at h
    unfold containsTag containsSub
    by_cases hp : tagStr.isPrefixOf (c :: cs) = true
    · simp [hp]
    · rw [if_neg (by simpa using hp)] at h
      have hc := ih h
      unfold containsTag at hc
      simp [hp, hc]

theorem waitSearch_containsTag (line : List Char)
    (h : waitSearch line = true) : containsTag line = true := by
  unfold waitSearch at h
  cases ha : afterFirstTag line with
  | none => rw [ha] at h; cases h
  | some r => exact afterFirstTag_containsTag line r ha

theorem failSearch_containsTag (line : List Char)
    (h : failSearch line = true) : containsTag line = true := by
  unfold failSearch at h
  cases ha : afterFirstTag line with
  | none => rw [ha] at h; cases h
  | some r => exact afterFirstTag_containsTag line r ha

theorem wddStep_del (fn : List Char) (st : LockState) (line ds : List Char)
    (hct : containsTag line = true) (hdel : delIdSearch line = some ds) :
    wddStep fn st line = .ok (⟨some ds, none, none⟩, none) := by
  simp [wddStep, hct, hdel]

theorem wddStep_wait (fn : List Char) (st : LockState) (line : List Char)
    (t : Timestamp) (hdel : delIdSearch line = none)
    (hwait : waitSearch line = true)
    (hid : pyTruthy st.current_del_id = true)
    (hp : parse_timestamp line = .ok t) :
    wddStep fn st line = .ok (⟨st.current_del_id, some line, some t⟩, none) := by
  have hct := waitSearch_containsTag line hwait
  simp [wddStep, hct, hdel, hwait, hid, hp]

theorem wddStep_fail (fn : List Char) (st : LockState) (line ds : List Char)
    (t1 t2 : Timestamp) (hdel : delIdSearch line = none)
    (hwait : waitSearch line = false) (hfail : failSearch line = true)
    (hid : st.current_del_id = some ds) (hne : ds.isEmpty = false)
    (hts : st.wait_timestamp = some t1)
    (hp : parse_timestamp line = .ok t2) :
    wddStep fn st line =
      .ok (idleLS, some ⟨ds, fmtTs t1, fmtTs t2,
            epochSecs t2 - epochSecs t1, "LOCK FAILED".data, fn⟩) := by
  have hct := failSearch_containsTag line hfail
  simp [wddStep, hct, hdel, hwait, hfail, hid, hts, hne, pyTruthy, hp]

def del100Line : List Char := "WMS_XDock_Pegging_Pub: Del Id:100".data

/-- C1: on an input consisting of a `Del Id:100` line, then a tagged
wait-time line whose timestamp parses to `t1`, then a tagged failure line
whose timestamp parses to `t2` (in that order, with only non-marker lines
before, between and after), the extractor emits exactly one record:
identifier 100, result `LOCK FAILED`, wait start `t1`, result time `t2`,
and elapsed seconds `t2 − t1`, with no clamping (the value is negative
whenever `t2` is earlier than `t1`). -/
theorem c1_lock_failure_sequence (fn : List Char)
    (pre mid1 mid2 post : List (List Char)) (w f : List Char)
    (t1 t2 : Timestamp)
    (hpre : ∀ l ∈ pre, notMarker l = true)
    (hm1 : ∀ l ∈ mid1, notMarker l = true)
    (hm2 : ∀ l ∈ mid2, notMarker l = true)
    (hpost : ∀ l ∈ post, notMarker l = true)
    (hwdel : delIdSearch w = none) (hw : waitSearch w = true)
    (hwp : parse_timestamp w = .ok t1)
    (hfdel : delIdSearch f = none) (hfw : waitSearch f = false)
    (hff : failSearch f = true) (hfp : parse_timestamp f = .ok t2) :
    extract_wdd_lock_info fn
      (pre ++ del100Line :: (mid1 ++ w :: (mid2 ++ f :: post))) =
      .ok [⟨"100".data, fmtTs t1, fmtTs t2, epochSecs t2 - epochSecs t1,
            "LOCK FAILED".data, fn⟩] := by
  unfold extract_wdd_lock_info
  rw [wddLoop_skip fn pre _ idleLS hpre, wddLoop_cons,
    wddStep_del fn idleLS del100Line "100".data rfl rfl]
  dsimp only
  rw [wddLoop_skip fn mid1 _ _ hm1, wddLoop_cons,
    wddStep_wait fn ⟨some "100".data, none, none⟩ w t1 hwdel hw rfl hwp]
  dsimp only
  rw [wddLoop_skip fn mid2 _ _ hm2, wddLoop_cons,
    wddStep_fail fn ⟨some "100".data, some w, some t1⟩ f "100".data t1 t2
      hfdel hfw hff rfl rfl rfl hfp]
  dsimp only
  have hp : wddLoop fn (post ++ []) idleLS = wddLoop fn [] idleLS :=
    wddLoop_skip fn post [] idleLS hpost
  rw [List.append_nil] at hp
  rw [hp, wddLoop_nil]

theorem c1_witness :
    extract_wdd_lock_info "a.log".data
      [ del100Line,
        "[01-JAN-25 10:00:05] WMS_XDock_Pegging_Pub: wdd update wait time:10".data,
        "[01-JAN-25 10:00:03] WMS_XDock_Pegging_Pub: Could not lock the WDD demand line record".data] =
      .ok [⟨"100".data, "01-Jan-25 10:00:05".data, "01-Jan-25 10:00:03".data,
            -2, "LOCK FAILED".data, "a.log".data⟩] :=
  c1_lock_failure_sequence "a.log".data [] [] [] []
    "[01-JAN-25 10:00:05] WMS_XDock_Pegging_Pub: wdd update wait time:10".data
    "[01-JAN-25 10:00:03] WMS_XDock_Pegging_Pub: Could not lock the WDD demand line record".data
    ⟨2025, 1, 1, 10, 0, 5⟩ ⟨2025, 1, 1, 10, 0, 3⟩
    (by simp) (by simp) (by simp) (by simp)
    rfl rfl rfl rfl rfl rfl rfl

theorem oraMatchAt_digits (cs d : List Char) (h : oraMatchAt cs = some d) :
    d.length = 5 ∧ ∀ c ∈ d, isDigitC c = true := by
  unfold oraMatchAt at h
  split at h
  · split at h
    · injection h with h
      subst h
      rename_i hcond
      simp only [Bool.and_eq_true] at hcond
      refine ⟨rfl, ?_⟩
      intro c hc
      simp only [List.mem_cons, List.not_mem_nil, or_false] at hc
      rcases hc with rfl | rfl | rfl | rfl | rfl
      · exact hcond.1.1.1.1.1.2
      · exact hcond.1.1.1.1.2
      · exact hcond.1.1.1.2
      · exact hcond.1.1.2
      · exact hcond.1.2
    · cases h
  · cases h

theorem oraSearchFrom_digits (cs : List Char) :
    ∀ i pos d, oraSearchFrom cs i = some (pos, d) →
      d.length = 5 ∧ ∀ c ∈ d, isDigitC c = true := by
  induction cs with
  | nil => intro i pos d h; cases h
  | cons c cs ih =>
    intro i pos d h
    unfold oraSearchFrom at h
    cases hm : oraMatchAt (c :: cs) with
    | some d0 =>
      rw [hm] at h
      injection h with h2
      have hd : d0 = d := congrArg Prod.snd h2
      subst hd
      exact oraMatchAt_digits (c :: cs) d0 hm
    | none =>
      rw [hm] at h
      exact ih (i + 1) pos d h

theorem oraLine_ok_some (fn : List Char) (n : Nat) (line : List Char)
    (r : OraRecord) (h : oraLine fn n line = .ok (some r)) :
    ∃ pos digits, oraSearch line = some (pos, digits) ∧
      digits ≠ "01403".data ∧
      r.error_code = "ORA-".data ++ digits ∧
      r.message = stripWs (line.drop pos) ∧
      r.line_number = n ∧ r.file = fn ∧
      r.context = (ctxSearch line).getD "Unknown".data ∧
      r.full_line =
        (if 200 < line.length then line.take 200 ++ "...".data else line) := by
  unfold oraLine at h
  cases hs : oraSearch line with
  | none => rw [hs] at h; cases h
  | some pd =>
    obtain ⟨pos, digits⟩ := pd
    rw [hs] at h
    dsimp only at h
    by_cases hd : digits = "01403".data
    · rw [if_pos hd] at h; cases h
    · rw [if_neg hd] at h
      refine ⟨pos, digits, rfl, hd, ?_⟩
      cases hp : parse_timestamp line with
      | valueError => rw [hp] at h; cases h
      | noTs =>
        rw [hp] at h
        injection h with h
        injection h with h
        subst h
        exact ⟨rfl, rfl, rfl, rfl, rfl, rfl⟩
      | ok t =>
        rw [hp] at h
        injection h with h
        injection h with h
        subst h
        exact ⟨rfl, rfl, rfl, rfl, rfl, rfl⟩

theorem oraLoop_code_not_reserved (fn : List Char) (lines : List (List Char)) :
    ∀ n recs, oraLoop fn lines n = .ok recs →
      ∀ r ∈ recs, r.error_code ≠ "ORA-01403".data := by
  induction lines with
  | nil =>
    intro n recs h r hr
    unfold oraLoop at h
    injection h with h
    subst h
    cases hr
  | cons l ls ih =>
    intro n recs h r hr
    unfold oraLoop at h
    cases hl : oraLine fn n l with
    | error e => rw [hl] at h; cases h
    | ok o =>
      rw [hl] at h
      cases o with
      | none => exact ih (n + 1) recs h r hr
      | some r0 =>
        cases hrec : oraLoop fn ls (n + 1) with
        | error e => rw [hrec] at h; cases h
        | ok rs =>
          rw [hrec] at h
          injection h with h
          subst h
          cases hr with
          | head =>
            obtain ⟨pos, d, -, hd, hcode, -⟩ :=
              oraLine_ok_some fn n l r hl
            rw [hcode,
              show ("ORA-01403".data : List Char) =
                "ORA-".data ++ "01403".data from by decide]
            intro hcontra
            exact hd (List.append_cancel_left hcontra)
          | tail b hr2 =>
            exact ih (n + 1) rs hrec r hr2

/-- C5: no emitted OracleErrorRecord carries the reserved code
`ORA-01403`; a line whose first `ORA-` match captures digits `01403` yields
no record at all; and the line `ORA-00001: unique constraint` yields
exactly one record, with code `ORA-00001`. -/
theorem c5_reserved_code_excluded (fn : List Char) (lines : List (List Char))
    (recs : List OraRecord) (r : OraRecord) :
    (extract_oracle_errors fn lines = .ok recs → r ∈ recs →
      r.error_code ≠ "ORA-01403".data) ∧
    (∀ n line pos, oraSearch line = some (pos, "01403".data) →
      oraLine fn n line = .ok none) ∧
    extract_oracle_errors "e.log".data
        ["ORA-00001: unique constraint".data] =
      .ok [⟨"ORA-00001".data, "ORA-00001: unique constraint".data,
            "N/A".data, 1, "Unknown".data, "e.log".data,
            "ORA-00001: unique constraint".data⟩] := by
  refine ⟨?_, ?_, rfl⟩
  · intro h hr
    exact oraLoop_code_not_reserved fn lines 1 recs h r hr
  · intro n line pos h
    unfold oraLine
    rw [h]
    simp

theorem c5_witness :
    (⟨"ORA-00001".data, "ORA-00001: unique constraint".data, "N/A".data, 1,
      "Unknown".data, "e.log".data,
      "ORA-00001: unique constraint".data⟩ : OraRecord).error_code ≠
      "ORA-01403".data :=
  (c5_reserved_code_excluded "e.log".data
      ["ORA-00001: unique constraint".data]
      [⟨"ORA-00001".data, "ORA-00001: unique constraint".data, "N/A".data, 1,
        "Unknown".data, "e.log".data, "ORA-00001: unique constraint".data⟩]
      ⟨"ORA-00001".data, "ORA-00001: unique constraint".data, "N/A".data, 1,
        "Unknown".data, "e.log".data,
        "ORA-00001: unique constraint".data⟩).1 rfl (List.Mem.head [])

/-- C9: for every emitted record, the stored full line is the original
line when its length is at most 200 characters, and otherwise the first
200 characters followed by the ellipsis marker `...` (which is then a
suffix of the stored value); the marker is appended exactly in the
truncated case. -/
theorem c9_full_line_truncation (fn : List Char) (n : Nat) (line : List Char)
    (r : OraRecord) (h : oraLine fn n line = .ok (some r)) :
    r.full_line =
      (if 200 < line.length then line.take 200 ++ "...".data else line) ∧
    (line.length ≤ 200 → r.full_line = line) ∧
    (200 < line.length →
      r.full_line = line.take 200 ++ "...".data ∧
      "...".data <:+ r.full_line) := by
  obtain ⟨pos, d, -, -, -, -, -, -, -, hfl⟩ := oraLine_ok_some fn n line r h
  refine ⟨hfl, ?_, ?_⟩
  · intro hle
    rw [hfl, if_neg (by omega)]
  · intro hgt
    rw [hfl, if_pos hgt]
    exact ⟨rfl, ⟨line.take 200, rfl⟩⟩

theorem c9_witness :
    (⟨"ORA-00001".data, "ORA-00001: x".data, "N/A".data, 1, "Unknown".data,
      "e.log".data, "ORA-00001: x".data⟩ : OraRecord).full_line =
      "ORA-00001: x".data :=
  (c9_full_line_truncation "e.log".data 1 "ORA-00001: x".data
      ⟨"ORA-00001".data, "ORA-00001: x".data, "N/A".data, 1, "Unknown".data,
        "e.log".data, "ORA-00001: x".data⟩ rfl).2.1 (by decide)

/-- C10: error-code matching is case-insensitive — any casing of the
`ORA-` prefix followed by five digits and a separator produces a record
(shown generally for an arbitrary-case prefix at the start of a line, and
concretely for the all-lowercase line `ora-00001: x`) — yet every emitted
record's code is the uppercase literal `ORA-` followed by the five matched
digits. -/
theorem c10_case_insensitive_normalized :
    (∀ (fn : List Char) (n : Nat) (line : List Char) (r : OraRecord),
      oraLine fn n line = .ok (some r) →
      ∃ d, d.length = 5 ∧ (∀ c ∈ d, isDigitC c = true) ∧
        r.error_code = "ORA-".data ++ d) ∧
    (∀ (fn : List Char) (n : Nat) (c0 c1 c2 e1 e2 e3 e4 e5 : Char)
        (rest : List Char),
      (c0 = 'O' ∨ c0 = 'o') → (c1 = 'R' ∨ c1 = 'r') → (c2 = 'A' ∨ c2 = 'a') →
      isDigitC e1 = true → isDigitC e2 = true → isDigitC e3 = true →
      isDigitC e4 = true → isDigitC e5 = true →
      [e1, e2, e3, e4, e5] ≠ "01403".data →
      parse_timestamp
          (c0 :: c1 :: c2 :: '-' :: e1 :: e2 :: e3 :: e4 :: e5 :: ':' :: rest)
        ≠ .valueError →
      ∃ r, oraLine fn n
          (c0 :: c1 :: c2 :: '-' :: e1 :: e2 :: e3 :: e4 :: e5 :: ':' :: rest)
          = .ok (some r) ∧
        r.error_code = "ORA-".data ++ [e1, e2, e3, e4, e5]) ∧
    extract_oracle_errors "e.log".data ["ora-00001: x".data] =
      .ok [⟨"ORA-00001".data, "ora-00001: x".data, "N/A".data, 1,
            "Unknown".data, "e.log".data, "ora-00001: x".data⟩] := by
  refine ⟨?_, ?_, rfl⟩
  · intro fn n line r h
    obtain ⟨pos, d, hs, -, hcode, -⟩ := oraLine_ok_some fn n line r h
    obtain ⟨hlen, hdig⟩ := oraSearchFrom_digits line 0 pos d hs
    exact ⟨d, hlen, hdig, hcode⟩
  · intro fn n c0 c1 c2 e1 e2 e3 e4 e5 rest hc0 hc1 hc2 hd1 hd2 hd3 hd4 hd5
      hne hnve
    have hm : oraMatchAt
        (c0 :: c1 :: c2 :: '-' :: e1 :: e2 :: e3 :: e4 :: e5 :: ':' :: rest) =
        some [e1, e2, e3, e4, e5] := by
      rcases hc0 with rfl | rfl <;> rcases hc1 with rfl | rfl <;>
        rcases hc2 with rfl | rfl <;>
        simp [oraMatchAt, eqCI, hd1, hd2, hd3, hd4, hd5]
    have hsearch : oraSearch
        (c0 :: c1 :: c2 :: '-' :: e1 :: e2 :: e3 :: e4 :: e5 :: ':' :: rest) =
        some (0, [e1, e2, e3, e4, e5]) := by
      unfold oraSearch oraSearchFrom
      rw [hm]
    unfold oraLine
    rw [hsearch]
    dsimp only
    rw [if_neg hne]
    cases hp : parse_timestamp
        (c0 :: c1 :: c2 :: '-' :: e1 :: e2 :: e3 :: e4 :: e5 :: ':' :: rest)
      with
    | valueError => exact absurd hp hnve
    | noTs => exact ⟨_, rfl, rfl⟩
    | ok t => exact ⟨_, rfl, rfl⟩

theorem c10_witness :
    ∃ r, oraLine "e.log".data 7
        ('o' :: 'R' :: 'a' :: '-' :: '0' :: '0' :: '6' :: '0' :: '0' :: ':'
          :: " t".data) = .ok (some r) ∧
      r.error_code = "ORA-".data ++ [ '0', '0', '6', '0', '0'] :=
  c10_case_insensitive_normalized.2.1 "e.log".data 7 'o' 'R' 'a' '0' '0' '6'
    '0' '0' " t".data (Or.inr rfl) (Or.inl rfl) (Or.inr rfl) rfl rfl rfl rfl
    rfl (by decide) (by decide)

theorem tracesScan_spec (sid : List Char) (lines : List (List Char)) :
    ∀ n fo lo, tracesScan sid lines n fo lo =
      ((match fo with
        | some f => some f
        | none => (firstHitIdx sid lines).map (· + n)),
       (match lastHitIdx sid lines with
        | some k => some (k + n)
        | none => lo)) := by
  induction lines with
  | nil =>
    intro n fo lo
    cases fo <;> simp [tracesScan, firstHitIdx, lastHitIdx]
  | cons l ls ih =>
    intro n fo lo
    unfold tracesScan firstHitIdx lastHitIdx
    cases hc : containsSub sid l
    · rw [if_neg (by simp), if_neg (by simp), if_neg (by simp),
        ih (n + 1) fo lo]
      refine Prod.ext ?_ ?_
      · cases fo
        · cases hf : firstHitIdx sid ls <;> simp [hf] <;> omega
        · rfl
      · cases hl : lastHitIdx sid ls <;> simp [hl] <;> omega
    · rw [if_pos rfl, if_pos rfl, ih (n + 1) _ (some n)]
      refine Prod.ext ?_ ?_
      · cases fo <;> simp
      · cases hl : lastHitIdx sid ls <;> simp [hl] <;> omega

theorem lastHitIdx_lt (sid : List Char) (lines : List (List Char)) :
    ∀ k, lastHitIdx sid lines = some k → k < lines.length := by
  induction lines with
  | nil => intro k h; cases h
  | cons l ls ih =>
    intro k h
    unfold lastHitIdx at h
    cases hl : lastHitIdx sid ls with
    | some k0 =>
      rw [hl] at h
      injection h with h
      subst h
      have := ih k0 hl
      simp only [List.length_cons]
      omega
    | none =>
      rw [hl] at h
      cases hc : containsSub sid l
      · rw [if_neg (by simp [hc])] at h; cases h
      · rw [if_pos hc] at h
        injection h with h
        subst h
        simp

theorem firstHitIdx_none_iff (sid : List Char) (lines : List (List Char)) :
    firstHitIdx sid lines = none ↔ lastHitIdx sid lines = none := by
  induction lines with
  | nil => simp [firstHitIdx, lastHitIdx]
  | cons l ls ih =>
    unfold firstHitIdx lastHitIdx
    cases hc : containsSub sid l
    · rw [if_neg (by simp), if_neg (by simp)]
      cases hf : firstHitIdx sid ls with
      | none => rw [ih.mp hf]; simp [hf]
      | some i0 =>
        cases hl : lastHitIdx sid ls with
        | none =>
          rw [ih.mpr hl] at hf
          cases hf
        | some k0 => simp
      
    · rw [if_pos rfl, if_pos rfl]
      cases hl : lastHitIdx sid ls <;> simp

theorem firstHitIdx_le_lastHitIdx (sid : List Char) (lines : List (List Char)) :
    ∀ i k, firstHitIdx sid lines = some i → lastHitIdx sid lines = some k →
      i ≤ k := by
  induction lines with
  | nil => intro i k h; cases h
  | cons l ls ih =>
    intro i k hf hl
    unfold firstHitIdx at hf
    unfold lastHitIdx at hl
    cases hc : containsSub sid l
    · rw [if_neg (by simp [hc])] at hf
      cases hf0 : firstHitIdx sid ls with
      | none => rw [hf0] at hf; cases hf
      | some i0 =>
        rw [hf0] at hf
        have hi : i = i0 + 1 := by simpa using hf.symm
        cases hl0 : lastHitIdx sid ls with
        | none =>
          rw [(firstHitIdx_none_iff sid ls).mpr hl0] at hf0
          cases hf0
        | some k0 =>
          rw [hl0] at hl
          injection hl with hl
          have := ih i0 k0 hf0 hl0
          omega
    · rw [if_pos hc] at hf
      injection hf with hf
      cases hl0 : lastHitIdx sid ls with
      | none =>
        rw [hl0, if_pos hc] at hl
        injection hl with hl
        omega
      | some k0 =>
        rw [hl0] at hl
        injection hl with hl
        omega

/-- C6: the Trace Extractor returns the literal inclusive slice of the
file's lines from the first to the last line containing the search string
(1-based line numbers `first = i + 1`, `last = k + 1` for 0-based hit
indices `i`, `k`), and the returned span has `last − first + 1` lines; when
the string occurs on no line it returns `([], 0, 0)`. -/
theorem c6_trace_window (lines : List (List Char)) (sid : List Char) :
    (firstHitIdx sid lines = none → extract_id_traces lines sid = ([], 0, 0)) ∧
    (∀ i k, firstHitIdx sid lines = some i → lastHitIdx sid lines = some k →
      extract_id_traces lines sid =
        ((lines.drop i).take (k + 1 - i), i + 1, k + 1) ∧
      ((lines.drop i).take (k + 1 - i)).length = (k + 1) - (i + 1) + 1) := by
  constructor
  · intro hf
    unfold extract_id_traces
    rw [tracesScan_spec sid lines 1 none none, hf,
      (firstHitIdx_none_iff sid lines).mp hf]
    rfl
  · intro i k hf hl
    have hik := firstHitIdx_le_lastHitIdx sid lines i k hf hl
    have hk := lastHitIdx_lt sid lines k hl
    constructor
    · unfold extract_id_traces
      rw [tracesScan_spec sid lines 1 none none, hf, hl]
      dsimp only [Option.map_some']
      rw [Nat.add_sub_cancel]
    · rw [List.length_take, List.length_drop]
      omega

theorem c6_witness :
    extract_id_traces
        [ "a".data, "x1".data, "b".data, "x2".data, "c".data] "x".data =
      ([ "x1".data, "b".data, "x2".data], 2, 4) ∧
    ([ "x1".data, "b".data, "x2".data] : List (List Char)).length = 4 - 2 + 1 := by
  have h := (c6_trace_window
      [ "a".data, "x1".data, "b".data, "x2".data, "c".data] "x".data).2
      1 3 (by decide) (by decide)
  exact ⟨h.1, h.2⟩

/-- C4 counterexample: the line `[99-JAN-25 10:00:00]` has a bracketed
substring matching the shape of the timestamp pattern, but `99` is not a
valid day, so `datetime.strptime` raises an uncaught `ValueError`; the
extractor does not return the absence value as the claim states. -/
theorem c4_counterexample :
    tsSearch "[99-JAN-25 10:00:00]".data ≠ none ∧
    parse_timestamp "[99-JAN-25 10:00:00]".data = .valueError ∧
    parse_timestamp "[99-JAN-25 10:00:00]".data ≠ .noTs := by
  decide

/-- C4 amended: for every line, the Timestamp Extractor returns the parsed
timestamp when the leftmost shape-matching bracketed substring denotes a
valid date and time, returns the absence value exactly when no substring
matches the pattern shape, and raises `ValueError` (modelled as
`.valueError`) when a substring matches the shape but denotes an invalid
date or time. -/
theorem c4_amended_malformed_raises (line : List Char) :
    (tsSearch line = none → parse_timestamp line = .noTs) ∧
    (∀ g t, tsSearch line = some g → strptimeModel g = some t →
      parse_timestamp line = .ok t) ∧
    (∀ g, tsSearch line = some g → strptimeModel g = none →
      parse_timestamp line = .valueError) := by
  refine ⟨?_, ?_, ?_⟩
  · intro h
    simp [parse_timestamp, h]
  · intro g t h1 h2
    simp [parse_timestamp, h1, h2]
  · intro g h1 h2
    simp [parse_timestamp, h1, h2]

theorem c4_witness :
    parse_timestamp "[99-JAN-25 10:00:00]".data = .valueError :=
  (c4_amended_malformed_raises "[99-JAN-25 10:00:00]".data).2.2
    ⟨'9', '9', 'J', 'A', 'N', '2', '5', [ ' '], '1', '0', '0', '0', '0', '0'⟩
    (by decide) (by decide)

theorem isDigitC_cases (c : Char) (h : isDigitC c = true) :
    c = '0' ∨ c = '1' ∨ c = '2' ∨ c = '3' ∨ c = '4' ∨ c = '5' ∨ c = '6' ∨
    c = '7' ∨ c = '8' ∨ c = '9' := by
  unfold isDigitC at h
  simp only [Bool.or_eq_true, beq_iff_eq] at h
  tauto

theorem digit_roundtrip (c : Char) (h : isDigitC c = true) :
    dChar (digitVal c) = c ∧ digitVal c ≤ 9 := by
  rcases isDigitC_cases c h with
    rfl | rfl | rfl | rfl | rfl | rfl | rfl | rfl | rfl | rfl <;>
    exact ⟨rfl, by decide⟩

theorem render2_digits (a b : Char) (ha : isDigitC a = true)
    (hb : isDigitC b = true) :
    render2 (10 * digitVal a + digitVal b) = [ a, b] := by
  obtain ⟨ha1, ha2⟩ := digit_roundtrip a ha
  obtain ⟨hb1, hb2⟩ := digit_roundtrip b hb
  unfold render2
  have h1 : (10 * digitVal a + digitVal b) / 10 = digitVal a := by omega
  have h2 : (10 * digitVal a + digitVal b) % 10 = digitVal b := by omega
  rw [h1, h2, ha1, hb1]

theorem eqCI_upper (x u low : Char) (h : eqCI x u low = true)
    (hx : isUpperAZ x = true) (hl : isUpperAZ low = false) : x = u := by
  unfold eqCI at h
  simp only [Bool.or_eq_true, beq_iff_eq] at h
  rcases h with rfl | rfl
  · rfl
  · rw [hx] at hl; cases hl

theorem month_fmt (a b c : Char) (mo : Nat)
    (h : monthFromAbbrevCI a b c = some mo) (ha : isUpperAZ a = true)
    (hb : isUpperAZ b = true) (hc : isUpperAZ c = true) :
    monthAbbrevT mo = [ a, lowerC b, lowerC c] := by
  unfold monthFromAbbrevCI at h
  by_cases h1 : (eqCI a 'J' 'j' && eqCI b 'A' 'a' && eqCI c 'N' 'n') = true
  · rw [if_pos h1] at h
    injection h with h
    subst h
    rw [Bool.and_eq_true, Bool.and_eq_true] at h1
    obtain ⟨⟨e1, e2⟩, e3⟩ := h1
    rw [eqCI_upper a 'J' 'j' e1 ha (by decide),
      eqCI_upper b 'A' 'a' e2 hb (by decide),
      eqCI_upper c 'N' 'n' e3 hc (by decide)]
    rfl
  rw [if_neg h1] at h
  by_cases h2 : (eqCI a 'F' 'f' && eqCI b 'E' 'e' && eqCI c 'B' 'b') = true
  · rw [if_pos h2] at h
    injection h with h
    subst h
    rw [Bool.and_eq_true, Bool.and_eq_true] at h2
    obtain ⟨⟨e1, e2⟩, e3⟩ := h2
    rw [eqCI_upper a 'F' 'f' e1 ha (by decide),
      eqCI_upper b 'E' 'e' e2 hb (by decide),
      eqCI_upper c 'B' 'b' e3 hc (by decide)]
    rfl
  rw [if_neg h2] at h
  by_cases h3 : (eqCI a 'M' 'm' && eqCI b 'A' 'a' && eqCI c 'R' 'r') = true
  · rw [if_pos h3] at h
    injection h with h
    subst h
    rw [Bool.and_eq_true, Bool.and_eq_true] at h3
    obtain ⟨⟨e1, e2⟩, e3⟩ := h3
    rw [eqCI_upper a 'M' 'm' e1 ha (by decide),
      eqCI_upper b 'A' 'a' e2 hb (by decide),
      eqCI_upper c 'R' 'r' e3 hc (by decide)]
    rfl
  rw [if_neg h3] at h
  by_cases h4 : (eqCI a 'A' 'a' && eqCI b 'P' 'p' && eqCI c 'R' 'r') = true
  · rw [if_pos h4] at h
    injection h with h
    subst h
    rw [Bool.and_eq_true, Bool.and_eq_true] at h4
    obtain ⟨⟨e1, e2⟩, e3⟩ := h4
    rw [eqCI_upper a 'A' 'a' e1 ha (by decide),
      eqCI_upper b 'P' 'p' e2 hb (by decide),
      eqCI_upper c 'R' 'r' e3 hc (by decide)]
    rfl
  rw [if_neg h4] at h
  by_cases h5 : (eqCI a 'M' 'm' && eqCI b 'A' 'a' && eqCI c 'Y' 'y') = true
  · rw [if_pos h5] at h
    injection h with h
    subst h
    rw [Bool.and_eq_true, Bool.and_eq_true] at h5
    obtain ⟨⟨e1, e2⟩, e3⟩ := h5
    rw [eqCI_upper a 'M' 'm' e1 ha (by decide),
      eqCI_upper b 'A' 'a' e2 hb (by decide),
      eqCI_upper c 'Y' 'y' e3 hc (by decide)]
    rfl
  rw [if_neg h5] at h
  by_cases h6 : (eqCI a 'J' 'j' && eqCI b 'U' 'u' && eqCI c 'N' 'n') = true
  · rw [if_pos h6] at h
    injection h with h
    subst h
    rw [Bool.and_eq_true, Bool.and_eq_true] at h6
    obtain ⟨⟨e1, e2⟩, e3⟩ := h6
    rw [eqCI_upper a 'J' 'j' e1 ha (by decide),
      eqCI_upper b 'U' 'u' e2 hb (by decide),
      eqCI_upper c 'N' 'n' e3 hc (by decide)]
    rfl
  rw [if_neg h6] at h
  by_cases h7 : (eqCI a 'J' 'j' && eqCI b 'U' 'u' && eqCI c 'L' 'l') = true
  · rw [if_pos h7] at h
    injection h with h
    subst h
    rw [Bool.and_eq_true, Bool.and_eq_true] at h7
    obtain ⟨⟨e1, e2⟩, e3⟩ := h7
    rw [eqCI_upper a 'J' 'j' e1 ha (by decide),
      eqCI_upper b 'U' 'u' e2 hb (by decide),
      eqCI_upper c 'L' 'l' e3 hc (by decide)]
    rfl
  rw [if_neg h7] at h
  by_cases h8 : (eqCI a 'A' 'a' && eqCI b 'U' 'u' && eqCI c 'G' 'g') = true
  · rw [if_pos h8] at h
    injection h with h
    subst h
    rw [Bool.and_eq_true, Bool.and_eq_true] at h8
    obtain ⟨⟨e1, e2⟩, e3⟩ := h8
    rw [eqCI_upper a 'A' 'a' e1 ha (by decide),
      eqCI_upper b 'U' 'u' e2 hb (by decide),
      eqCI_upper c 'G' 'g' e3 hc (by decide)]
    rfl
  rw [if_neg h8] at h
  by_cases h9 : (eqCI a 'S' 's' && eqCI b 'E' 'e' && eqCI c 'P' 'p') = true
  · rw [if_pos h9] at h
    injection h with h
    subst h
    rw [Bool.and_eq_true, Bool.and_eq_true] at h9
    obtain ⟨⟨e1, e2⟩, e3⟩ := h9
    rw [eqCI_upper a 'S' 's' e1 ha (by decide),
      eqCI_upper b 'E' 'e' e2 hb (by decide),
      eqCI_upper c 'P' 'p' e3 hc (by decide)]
    rfl
  rw [if_neg h9] at h
  by_cases h10 : (eqCI a 'O' 'o' && eqCI b 'C' 'c' && eqCI c 'T' 't') = true
  · rw [if_pos h10] at h
    injection h with h
    subst h
    rw [Bool.and_eq_true, Bool.and_eq_true] at h10
    obtain ⟨⟨e1, e2⟩, e3⟩ := h10
    rw [eqCI_upper a 'O' 'o' e1 ha (by decide),
      eqCI_upper b 'C' 'c' e2 hb (by decide),
      eqCI_upper c 'T' 't' e3 hc (by decide)]
    rfl
  rw [if_neg h10] at h
  by_cases h11 : (eqCI a 'N' 'n' && eqCI b 'O' 'o' && eqCI c 'V' 'v') = true
  · rw [if_pos h11] at h
    injection h with h
    subst h
    rw [Bool.and_eq_true, Bool.and_eq_true] at h11
    obtain ⟨⟨e1, e2⟩, e3⟩ := h11
    rw [eqCI_upper a 'N' 'n' e1 ha (by decide),
      eqCI_upper b 'O' 'o' e2 hb (by decide),
      eqCI_upper c 'V' 'v' e3 hc (by decide)]
    rfl
  rw [if_neg h11] at h
  by_cases h12 : (eqCI a 'D' 'd' && eqCI b 'E' 'e' && eqCI c 'C' 'c') = true
  · rw [if_pos h12] at h
    injection h with h
    subst h
    rw [Bool.and_eq_true, Bool.and_eq_true] at h12
    obtain ⟨⟨e1, e2⟩, e3⟩ := h12
    rw [eqCI_upper a 'D' 'd' e1 ha (by decide),
      eqCI_upper b 'E' 'e' e2 hb (by decide),
      eqCI_upper c 'C' 'c' e3 hc (by decide)]
    rfl
  rw [if_neg h12] at h
  exact Option.noConfusion h

theorem tsMatchAt_classes (cs : List Char) (g : TsGroup)
    (h : tsMatchAt cs = some g) :
    isDigitC g.d1 = true ∧ isDigitC g.d2 = true ∧ isUpperAZ g.m1 = true ∧
    isUpperAZ g.m2 = true ∧ isUpperAZ g.m3 = true ∧ isDigitC g.y1 = true ∧
    isDigitC g.y2 = true ∧ isDigitC g.h1 = true ∧ isDigitC g.h2 = true ∧
    isDigitC g.mi1 = true ∧ isDigitC g.mi2 = true ∧ isDigitC g.s1 = true ∧
    isDigitC g.s2 = true := by
  unfold tsMatchAt at h
  split at h
  case h_2 => exact Option.noConfusion h
  case h_1 b0 d1 d2 da1 m1 m2 m3 da2 y1 y2 rest =>
    by_cases hc1 : (b0 == '[' && isDigitC d1 && isDigitC d2 && da1 == '-' &&
        isUpperAZ m1 && isUpperAZ m2 && isUpperAZ m3 && da2 == '-' &&
        isDigitC y1 && isDigitC y2) = true
    · rw [if_pos hc1] at h
      by_cases hws : ((rest.takeWhile isSpaceC).isEmpty) = true
      · rw [if_pos hws] at h
        exact Option.noConfusion h
      · rw [if_neg hws] at h
        split at h
        next x0 hh1 hh2 co1 mi1 mi2 co2 s1 s2 rb tail heq =>
          by_cases hc2 : (isDigitC hh1 && isDigitC hh2 && co1 == ':' &&
              isDigitC mi1 && isDigitC mi2 && co2 == ':' && isDigitC s1 &&
              isDigitC s2 && rb == ']') = true
          · rw [if_pos hc2] at h
            injection h with h
            subst h
            simp only [Bool.and_eq_true] at hc1 hc2
            obtain ⟨⟨⟨⟨⟨⟨⟨⟨⟨-, hd1⟩, hd2⟩, -⟩, hm1⟩, hm2⟩, hm3⟩, -⟩, hy1⟩,
              hy2⟩ := hc1
            obtain ⟨⟨⟨⟨⟨⟨⟨⟨hq1, hq2⟩, -⟩, hq4⟩, hq5⟩, -⟩, hq7⟩, hq8⟩, -⟩ := hc2
            exact ⟨hd1, hd2, hm1, hm2, hm3, hy1, hy2, hq1, hq2, hq4, hq5,
              hq7, hq8⟩
          · rw [if_neg hc2] at h
            exact Option.noConfusion h
        next => exact Option.noConfusion h
    · rw [if_neg hc1] at h
      exact Option.noConfusion h

theorem tsSearch_matchAt (line : List Char) (g : TsGroup)
    (h : tsSearch line = some g) : ∃ cs, tsMatchAt cs = some g := by
  induction line with
  | nil => exact Option.noConfusion h
  | cons c cs ih =>
    unfold tsSearch at h
    cases hm : tsMatchAt (c :: cs) with
    | some g0 =>
      rw [hm] at h
      injection h with h
      subst h
      exact ⟨c :: cs, hm⟩
    | none =>
      rw [hm] at h
      exact ih h

theorem strptimeModel_some (g : TsGroup) (t : Timestamp)
    (h : strptimeModel g = some t) :
    ∃ mo, monthFromAbbrevCI g.m1 g.m2 g.m3 = some mo ∧
      t = ⟨(if 10 * digitVal g.y1 + digitVal g.y2 ≤ 68 then
              2000 + (10 * digitVal g.y1 + digitVal g.y2)
            else 1900 + (10 * digitVal g.y1 + digitVal g.y2)), mo,
           10 * digitVal g.d1 + digitVal g.d2,
           10 * digitVal g.h1 + digitVal g.h2,
           10 * digitVal g.mi1 + digitVal g.mi2,
           10 * digitVal g.s1 + digitVal g.s2⟩ := by
  unfold strptimeModel at h
  cases hm : monthFromAbbrevCI g.m1 g.m2 g.m3 with
  | none =>
    rw [hm] at h
    exact Option.noConfusion h
  | some mo =>
    rw [hm] at h
    dsimp only at h
    by_cases hv : 1 ≤ 10 * digitVal g.d1 + digitVal g.d2 ∧
        10 * digitVal g.d1 + digitVal g.d2 ≤
          daysInMonth (if 10 * digitVal g.y1 + digitVal g.y2 ≤ 68 then
              2000 + (10 * digitVal g.y1 + digitVal g.y2)
            else 1900 + (10 * digitVal g.y1 + digitVal g.y2)) mo ∧
        10 * digitVal g.h1 + digitVal g.h2 ≤ 23 ∧
        10 * digitVal g.mi1 + digitVal g.mi2 ≤ 59 ∧
        10 * digitVal g.s1 + digitVal g.s2 ≤ 59
    · rw [if_pos hv] at h
      injection h with h
      exact ⟨mo, rfl, h.symm⟩
    · rw [if_neg hv] at h
      exact Option.noConfusion h

/-- C3 counterexample: on the line `[01-JAN-25 10:00:00]` the matched group
is `01-JAN-25 10:00:00` (the pattern requires an uppercase month), but
formatting the parsed value with the same format string yields
`01-Jan-25 10:00:00` (`strftime`'s `%b` is title-case), so the round trip
does not reproduce the matched substring character for character. -/
theorem c3_counterexample :
    tsSearch "[01-JAN-25 10:00:00]".data =
      some ⟨'0', '1', 'J', 'A', 'N', '2', '5', [ ' '],
            '1', '0', '0', '0', '0', '0'⟩ ∧
    parse_timestamp "[01-JAN-25 10:00:00]".data = .ok ⟨2025, 1, 1, 10, 0, 0⟩ ∧
    groupChars ⟨'0', '1', 'J', 'A', 'N', '2', '5', [ ' '],
            '1', '0', '0', '0', '0', '0'⟩ = "01-JAN-25 10:00:00".data ∧
    fmtTs ⟨2025, 1, 1, 10, 0, 0⟩ = "01-Jan-25 10:00:00".data ∧
    fmtTs ⟨2025, 1, 1, 10, 0, 0⟩ ≠
      groupChars ⟨'0', '1', 'J', 'A', 'N', '2', '5', [ ' '],
            '1', '0', '0', '0', '0', '0'⟩ := by
  decide

/-- C3 amended: for every line whose leftmost shape-matching bracketed
substring parses successfully and whose `\s+` separator is the single
space the format string reproduces, formatting the parsed value with the
same format string reproduces the matched substring up to the case of the
month abbreviation: the result is the matched substring with the second
and third month letters lower-cased (title case), not the substring
itself. -/
theorem c3_amended_title_case_roundtrip (line : List Char) (g : TsGroup)
    (t : Timestamp) (hs : tsSearch line = some g)
    (hp : parse_timestamp line = .ok t) (hws : g.ws = [ ' ']) :
    fmtTs t = groupChars { g with m2 := lowerC g.m2, m3 := lowerC g.m3 } := by
  have hsp : strptimeModel g = some t := by
    unfold parse_timestamp at hp
    rw [hs] at hp
    dsimp only at hp
    cases hq : strptimeModel g with
    | some t0 =>
      rw [hq] at hp
      injection hp with hp
      rw [hp]
    | none =>
      rw [hq] at hp
      exact TsResult.noConfusion hp
  obtain ⟨cs, hm⟩ := tsSearch_matchAt line g hs
  obtain ⟨hd1, hd2, hm1, hm2, hm3, hy1, hy2, hq1, hq2, hq4, hq5, hq7, hq8⟩ :=
    tsMatchAt_classes cs g hm
  obtain ⟨mo, hmo, ht⟩ := strptimeModel_some g t hsp
  subst ht
  have hyd1 := (digit_roundtrip g.y1 hy1).2
  have hyd2 := (digit_roundtrip g.y2 hy2).2
  unfold fmtTs groupChars
  dsimp only
  have hyy : (if 10 * digitVal g.y1 + digitVal g.y2 ≤ 68 then
      2000 + (10 * digitVal g.y1 + digitVal g.y2)
    else 1900 + (10 * digitVal g.y1 + digitVal g.y2)) % 100 =
      10 * digitVal g.y1 + digitVal g.y2 := by
    split_ifs <;> omega
  rw [hyy, render2_digits g.d1 g.d2 hd1 hd2, render2_digits g.y1 g.y2 hy1 hy2,
    render2_digits g.h1 g.h2 hq1 hq2, render2_digits g.mi1 g.mi2 hq4 hq5,
    render2_digits g.s1 g.s2 hq7 hq8,
    month_fmt g.m1 g.m2 g.m3 mo hmo hm1 hm2 hm3, hws]
  rfl

theorem c3_witness :
    fmtTs ⟨2025, 1, 1, 10, 0, 0⟩ =
      groupChars ⟨'0', '1', 'J', 'a', 'n', '2', '5', [ ' '],
            '1', '0', '0', '0', '0', '0'⟩ :=
  c3_amended_title_case_roundtrip "[01-JAN-25 10:00:00]".data
    ⟨'0', '1', 'J', 'A', 'N', '2', '5', [ ' '], '1', '0', '0', '0', '0', '0'⟩
    ⟨2025, 1, 1, 10, 0, 0⟩ (by decide) (by decide) rfl
